import Mathlib

/-!
Shallow embedding of the ArmanSahota/JiraKPIWebsite repository
(`jira_sprint_kpi.py` and `detect_story_points_field.py`).

Python values coming back from `resp.json()` are modelled by the inductive
type `PyVal`: JSON null and Python `None` are both `PyVal.none` (the `json`
module maps JSON null to `None`), numbers are `Int`/`Rat` (floats are
modelled as rationals, which is exact for every value the claims touch),
and dictionaries are insertion-ordered association lists, as in CPython.

An uncaught Python exception is modelled by `Except String`: `.error m`
carries the exception's name.  Code that the source wraps in
`try/except` is translated so that the caught error is replaced by the
handler's result.  Structural equality on `PyVal` is used where the source
compares values with `==`; it agrees with Python equality whenever at
least one side is a string, which covers every comparison the source makes
against string literals.
-/

inductive PyVal where
  | none
  | bool (b : Bool)
  | int (n : ℤ)
  | float (q : ℚ)
  | str (s : String)
  | dict (entries : List (String × PyVal))
  | list (xs : List PyVal)

abbrev Fields := List (String × PyVal)

/-- Python dictionary lookup distinguishing a missing key from a stored
`None`: `dget? d k` is `Option.none` when `k` is absent. -/
def dget? (d : Fields) (k : String) : Option PyVal :=
  (d.find? (fun p => p.1 == k)).map (·.2)

/-- `d.get(k)`: `None` both for a missing key and for a stored null. -/
def dget (d : Fields) (k : String) : PyVal :=
  (dget? d k).getD .none

/-- `d.get(k, dflt)`: the default is used only when the key is missing. -/
def dgetD (d : Fields) (k : String) (dflt : PyVal) : PyVal :=
  (dget? d k).getD dflt

/-- Python truthiness: `None`, `False`, `0`, `0.0`, `""`, `{}`, `[]` are falsy. -/
def truthy : PyVal → Bool
  | .none => false
  | .bool b => b
  | .int n => n != 0
  | .float q => q != 0
  | .str s => !s.isEmpty
  | .dict d => !d.isEmpty
  | .list xs => !xs.isEmpty

/-- `v.get(k)` on an arbitrary value: raises `AttributeError` unless `v` is a
dictionary. -/
def pyGet (v : PyVal) (k : String) : Except String PyVal :=
  match v with
  | .dict d => .ok (dget d k)
  | _ => .error "AttributeError"

/-- `v.get(k, dflt)` on an arbitrary value. -/
def pyGetD (v : PyVal) (k : String) (dflt : PyVal) : Except String PyVal :=
  match v with
  | .dict d => .ok (dgetD d k dflt)
  | _ => .error "AttributeError"

/-! String primitives.  The embedding uses its own structural
implementations of the string operations the source calls (`.lower()`,
`.startswith(...)`, `in`, `.replace(...)`, `<` for `sorted(...)`), each a
direct model of the CPython operation on the code-point list. -/

/-- ASCII lowercasing of one character, as CPython's `str.lower` acts on the
ASCII range (every string the source lowercases is ASCII). -/
def charLower (c : Char) : Char :=
  if 65 ≤ c.toNat && c.toNat ≤ 90 then Char.ofNat (c.toNat + 32) else c

/-- `s.lower()`. -/
def strLower (s : String) : String :=
  ⟨s.toList.map charLower⟩

def hasPrefixChars : List Char → List Char → Bool
  | [], _ => true
  | _ :: _, [] => false
  | c :: cs, d :: ds => c == d && hasPrefixChars cs ds

/-- `s.startswith(pre)`. -/
def strStartsWith (s pre : String) : Bool :=
  hasPrefixChars pre.toList s.toList

def subAux (pat : List Char) : List Char → Bool
  | [] => pat.isEmpty
  | c :: rest => hasPrefixChars pat (c :: rest) || subAux pat rest

/-- Python's `pat in s` substring test. -/
def containsSub (s pat : String) : Bool :=
  subAux pat.toList s.toList

def charListLt : List Char → List Char → Bool
  | [], [] => false
  | [], _ :: _ => true
  | _ :: _, [] => false
  | c :: cs, d :: ds =>
      decide (c.toNat < d.toNat) || (c.toNat == d.toNat && charListLt cs ds)

/-- Python's `<` on strings: lexicographic comparison of code points. -/
def strLtB (s t : String) : Bool :=
  charListLt s.toList t.toList

/-- `s.replace('Z', '+00:00')` — the only `replace` the source performs; a
single-character pattern makes it a per-character expansion. -/
def replaceZ (s : String) : String :=
  ⟨s.toList.flatMap (fun c => if c == 'Z' then "+00:00".toList else [c])⟩

/-- `v.lower()`: raises `AttributeError` unless `v` is a string. -/
def pyLowerStr (v : PyVal) : Except String String :=
  match v with
  | .str s => .ok (strLower s)
  | _ => .error "AttributeError"

/-- Value of a run of decimal digits; `some 0` on the empty run (callers check
emptiness separately), `Option.none` on a non-digit. -/
def digitsVal? (cs : List Char) : Option ℕ :=
  cs.foldl (fun acc c =>
      acc.bind (fun n => if c.isDigit then some (10 * n + (c.toNat - 48)) else Option.none))
    (some 0)

/-- Split a character list at the first `'.'`; the second component is
`Option.none` when no dot occurs. -/
def splitDot : List Char → (List Char × Option (List Char))
  | [] => ([], Option.none)
  | c :: rest =>
      if c = '.' then ([], some rest)
      else
        let p := splitDot rest
        (c :: p.1, p.2)

/-- `float(s)` on a string: an optional sign, then digits with an optional
decimal point (exponents, `inf`/`nan` and surrounding whitespace, which no
claim touches, are treated as unparseable). `Option.none` models `ValueError`. -/
def parsePyFloat (s : String) : Option ℚ :=
  let core : List Char → Option ℚ := fun cs =>
    match splitDot cs with
    | (ip, Option.none) =>
        if ip.isEmpty then Option.none
        else (digitsVal? ip).map (fun n => (n : ℚ))
    | (ip, some fp) =>
        if ip.isEmpty && fp.isEmpty then Option.none
        else (digitsVal? ip).bind (fun n =>
          (digitsVal? fp).map (fun f =>
            (n : ℚ) + (f : ℚ) / ((10 : ℚ) ^ fp.length)))
  let cs := s.toList
  if cs.head? = some '-' then (core cs.tail).map (fun q => -q)
  else if cs.head? = some '+' then core cs.tail
  else core cs

/-- `float(v)`: defined for ints, floats, bools (a Python `bool` is an `int`)
and numeric strings; `Option.none` models the `TypeError`/`ValueError` raised
otherwise. -/
def pyFloat : PyVal → Option ℚ
  | .int n => some (n : ℚ)
  | .float q => some q
  | .bool b => some (if b then 1 else 0)
  | .str s => parsePyFloat s
  | _ => Option.none

/-- Round half to even, as Python's `round`. -/
def roundHalfEven (q : ℚ) : ℤ :=
  let f : ℤ := ⌊q⌋
  let frac : ℚ := q - (f : ℚ)
  if frac < 1/2 then f
  else if 1/2 < frac then f + 1
  else if f % 2 = 0 then f else f + 1

/-- `round(x, 1)` on the exact rational value (binary floating-point
representation artifacts are abstracted away). -/
def pyRound1 (q : ℚ) : ℚ := ((roundHalfEven (q * 10) : ℤ) : ℚ) / 10

/-- An issue whose `"fields"` entry is present and is a dictionary, the shape
every claim about `jira_sprint_kpi.py` presupposes (`issue["fields"]` would
otherwise raise `KeyError`/`TypeError` before any getter logic runs). -/
structure Issue where
  fields : Fields

/-- `DONE_STATUS_CATEGORIES = {"done"}`. -/
def DONE_STATUS_CATEGORIES : List String := ["done"]

/-- `get_assignee_name` (jira_sprint_kpi.py lines 100-104).  Returns the raw
Python value (`displayName`/`emailAddress` need not be strings). -/
def get_assignee_name (issue : Issue) : Except String PyVal :=
  match dget issue.fields "assignee" with
  | .none => .ok (.str "Unassigned")
  | assignee =>
      match pyGet assignee "displayName" with
      | .error e => .error e
      | .ok dn =>
          if truthy dn then .ok dn
          else
            match pyGet assignee "emailAddress" with
            | .error e => .error e
            | .ok em => if truthy em then .ok em else .ok (.str "Unknown")

/-- `get_status_category` (lines 107-111): `status_category.get("key", "").lower()`
raises when the stored value is a truthy non-string. -/
def get_status_category (issue : Issue) : Except String String :=
  let status0 := dget issue.fields "status"
  let status := if truthy status0 then status0 else .dict []
  match pyGet status "statusCategory" with
  | .error e => .error e
  | .ok sc0 =>
      let status_category := if truthy sc0 then sc0 else .dict []
      match pyGetD status_category "key" (.str "") with
      | .error e => .error e
      | .ok key => pyLowerStr key

/-- `get_issue_type` (lines 114-116). -/
def get_issue_type (issue : Issue) : Except String PyVal :=
  let it0 := dget issue.fields "issuetype"
  let it := if truthy it0 then it0 else .dict []
  pyGetD it "name" (.str "Unknown")

/-- `get_story_points` (lines 119-127); `sp_field` is the
`JIRA_STORY_POINTS_FIELD` environment value.  The `try/except` around
`float(sp)` makes the function total. -/
def get_story_points (sp_field : String) (issue : Issue) : ℚ :=
  match dget issue.fields sp_field with
  | .none => 0
  | v => (pyFloat v).getD 0

/-- `get_cycle_time_days` (lines 130-148).  `parseISO` models
`datetime.fromisoformat`, returning the timestamp as seconds on the timeline
together with whether the string carried a UTC offset (so that subtracting an
offset-aware from an offset-naive datetime raises `TypeError` as in Python);
`Option.none` models `ValueError` on an unparseable string.  All three
exception kinds are caught by the source, so the function is total. -/
def get_cycle_time_days (parseISO : String → Option (ℚ × Bool)) (issue : Issue) : ℚ :=
  let created := dget issue.fields "created"
  let resolved := dget issue.fields "resolutiondate"
  if !truthy created || !truthy resolved then 0
  else
    match created, resolved with
    | .str c, .str r =>
        match parseISO (replaceZ c), parseISO (replaceZ r) with
        | some (t1, a1), some (t2, a2) =>
            if a2 == a1 then pyRound1 ((t2 - t1) / (24 * 3600)) else 0
        | _, _ => 0
    | _, _ => 0


/-! ## `compute_metrics` (jira_sprint_kpi.py lines 151-196) -/

/-- Numeric view of a Python value (`bool` is an `int` whose value is 0 or 1). -/
def pyNum? : PyVal → Option ℚ
  | .bool b => some (if b then 1 else 0)
  | .int n => some (n : ℚ)
  | .float q => some q
  | _ => Option.none

/-- Python `==` between hashable JSON scalars: `None` equals only `None`,
strings compare as strings, and numbers compare by value across `bool`,
`int` and `float` (`True == 1 == 1.0`).  Dicts and lists are never stored
as keys (they are unhashable), so they need not be compared. -/
def pyScalarEq (a b : PyVal) : Bool :=
  match a, b with
  | .none, .none => true
  | .str s, .str t => s == t
  | _, _ =>
      match pyNum? a, pyNum? b with
      | some x, some y => x == y
      | _, _ => false

/-- Dicts and lists cannot be dictionary keys: `metrics[assignee]` raises
`TypeError` on them. -/
def pyHashable : PyVal → Bool
  | .dict _ => false
  | .list _ => false
  | _ => true

/-- One per-assignee bucket of `compute_metrics` (the defaultdict's value). -/
structure AMetrics where
  total_issues : ℕ
  completed_issues : ℕ
  total_story_points : ℚ
  completed_story_points : ℚ
  issue_type_counts : List (PyVal × ℕ)
  bug_count : ℕ
  story_count : ℕ
  cycle_times : List ℚ
  story_points_list : List ℚ

def emptyAMetrics : AMetrics :=
  { total_issues := 0, completed_issues := 0, total_story_points := 0,
    completed_story_points := 0, issue_type_counts := [], bug_count := 0,
    story_count := 0, cycle_times := [], story_points_list := [] }

/-- The metrics defaultdict: an insertion-ordered association list. -/
abbrev Metrics := List (PyVal × AMetrics)

/-- `metrics[assignee]` on a defaultdict followed by in-place mutation:
update the existing bucket, or append a fresh one. -/
def updEntry (key : PyVal) (f : AMetrics → AMetrics) : Metrics → Metrics
  | [] => [(key, f emptyAMetrics)]
  | (k, v) :: rest =>
      if pyScalarEq k key then (k, f v) :: rest
      else (k, v) :: updEntry key f rest

/-- `m["issue_type_counts"][issue_type] += 1` on a defaultdict(int). -/
def bumpCount (key : PyVal) : List (PyVal × ℕ) → List (PyVal × ℕ)
  | [] => [(key, 1)]
  | (k, n) :: rest =>
      if pyScalarEq k key then (k, n + 1) :: rest
      else (k, n) :: bumpCount key rest

/-- The mutations lines 176-194 apply to the bucket `m = metrics[assignee]`
for one issue, given the values computed on lines 168-172 and the
`issue_type.lower()` string. -/
def bucketUpdate (status_cat it_lower : String) (issue_type : PyVal)
    (story_points cycle_time : ℚ) (m : AMetrics) : AMetrics :=
  let m1 := { m with
    total_issues := m.total_issues + 1,
    total_story_points := m.total_story_points + story_points,
    issue_type_counts := bumpCount issue_type m.issue_type_counts,
    story_points_list := m.story_points_list ++ [story_points] }
  let m2 :=
    if it_lower == "bug" then { m1 with bug_count := m1.bug_count + 1 }
    else if it_lower == "story" then { m1 with story_count := m1.story_count + 1 }
    else m1
  if DONE_STATUS_CATEGORIES.contains status_cat then
    { m2 with
      completed_issues := m2.completed_issues + 1,
      completed_story_points := m2.completed_story_points + story_points,
      cycle_times :=
        if cycle_time > 0 then m2.cycle_times ++ [cycle_time] else m2.cycle_times }
  else m2

/-- The loop body of `compute_metrics` (lines 167-194) for one issue.
Any uncaught exception (a getter raising, an unhashable dictionary key, or
`issue_type.lower()` on a non-string) aborts the whole computation, as the
exception would propagate out of `compute_metrics`. -/
def processIssue (sp_field : String) (parseISO : String → Option (ℚ × Bool))
    (metrics : Metrics) (issue : Issue) : Except String Metrics :=
  match get_assignee_name issue with
  | .error e => .error e
  | .ok assignee =>
  match get_status_category issue with
  | .error e => .error e
  | .ok status_cat =>
  match get_issue_type issue with
  | .error e => .error e
  | .ok issue_type =>
  if !pyHashable assignee || !pyHashable issue_type then .error "TypeError"
  else
  match pyLowerStr issue_type with
  | .error e => .error e
  | .ok it_lower =>
      .ok (updEntry assignee
        (bucketUpdate status_cat it_lower issue_type
          (get_story_points sp_field issue) (get_cycle_time_days parseISO issue))
        metrics)

def compute_metricsAux (sp_field : String) (parseISO : String → Option (ℚ × Bool))
    (metrics : Metrics) : List Issue → Except String Metrics
  | [] => .ok metrics
  | issue :: rest =>
      match processIssue sp_field parseISO metrics issue with
      | .error e => .error e
      | .ok m2 => compute_metricsAux sp_field parseISO m2 rest

/-- `compute_metrics` (lines 151-196). -/
def compute_metrics (sp_field : String) (parseISO : String → Option (ℚ × Bool))
    (issues : List Issue) : Except String Metrics :=
  compute_metricsAux sp_field parseISO [] issues

/-! ## `compute_sprint_totals` (lines 199-232) -/

structure SprintTotals where
  total_issues : ℕ
  completed_issues : ℕ
  total_story_points : ℚ
  completed_story_points : ℚ
  total_bugs : ℕ
  total_stories : ℕ
  all_cycle_times : List ℚ
  all_story_points : List ℚ
  assignee_story_points : List ℚ

def emptyTotals : SprintTotals :=
  { total_issues := 0, completed_issues := 0, total_story_points := 0,
    completed_story_points := 0, total_bugs := 0, total_stories := 0,
    all_cycle_times := [], all_story_points := [], assignee_story_points := [] }

/-- One iteration of the totals loop (lines 215-230): `continue` on the
`"Unassigned"` key, otherwise accumulate. -/
def addTotals (t : SprintTotals) (entry : PyVal × AMetrics) : SprintTotals :=
  if pyScalarEq entry.1 (.str "Unassigned") then t
  else
    let m := entry.2
    { total_issues := t.total_issues + m.total_issues,
      completed_issues := t.completed_issues + m.completed_issues,
      total_story_points := t.total_story_points + m.total_story_points,
      completed_story_points := t.completed_story_points + m.completed_story_points,
      total_bugs := t.total_bugs + m.bug_count,
      total_stories := t.total_stories + m.story_count,
      all_cycle_times := t.all_cycle_times ++ m.cycle_times,
      all_story_points := t.all_story_points ++ m.story_points_list,
      assignee_story_points :=
        if m.total_story_points > 0 then t.assignee_story_points ++ [m.total_story_points]
        else t.assignee_story_points }

/-- `compute_sprint_totals` (lines 199-232). -/
def compute_sprint_totals (metrics : Metrics) : SprintTotals :=
  metrics.foldl addTotals emptyTotals

/-! ## The parts of `write_csv` (lines 235-346) the claims are about.
Python's `/` raising `ZeroDivisionError` on a zero denominator is modelled
by `pyDiv`, so "does not divide by zero" is the statement that the
computation returns `.ok`. -/

def pyDiv (a b : ℚ) : Except String ℚ :=
  if b = 0 then .error "ZeroDivisionError" else .ok (a / b)

/-- The `"Completion % (Issues)"` cell (lines 285-288):
`round(100.0 * completed_issues / total_issues, 1) if total_issues > 0 else 0.0`. -/
def completionPctIssues (m : AMetrics) : Except String ℚ :=
  if 0 < m.total_issues then
    match pyDiv (100 * (m.completed_issues : ℚ)) ((m.total_issues : ℕ) : ℚ) with
    | .error e => .error e
    | .ok q => .ok (pyRound1 q)
  else .ok 0

/-- The `"Completion % (Story Points)"` cell (lines 291-294):
`round(100.0 * completed_sp / total_sp, 1) if total_sp > 0 else 0.0`. -/
def completionPctSP (m : AMetrics) : Except String ℚ :=
  if 0 < m.total_story_points then
    match pyDiv (100 * m.completed_story_points) m.total_story_points with
    | .error e => .error e
    | .ok q => .ok (pyRound1 q)
  else .ok 0

/-- The `"Team Velocity (Completed SP)"` summary cell (lines 325 and 333):
`team_velocity = sprint_totals["completed_story_points"]`. -/
def team_velocity (metrics : Metrics) : ℚ :=
  (compute_sprint_totals metrics).completed_story_points

/-! ## `fetch_issues_for_sprint` (lines 73-97).
The HTTP server is modelled as a consistent paginated view of the sprint's
full issue list `all`: the request with `startAt = s` and `maxResults = 100`
answers `{"issues": all[s : s+100], "total": len(all)}`, which is the Jira
Agile API contract the loop relies on. -/

def fetchIssuesLoop {α : Type} (all : List α) (start_at : ℕ) : List α :=
  let page := (all.drop start_at).take 100
  let total := all.length
  if total ≤ start_at + 100 then page
  else page ++ fetchIssuesLoop all (start_at + 100)
termination_by all.length - start_at
decreasing_by simp_all; omega

def fetch_issues_for_sprint {α : Type} (all : List α) : List α :=
  fetchIssuesLoop all 0

/-! ## `detect_story_points_field.py`
Field metadata entries are modelled as `(id, name)` string pairs:
`field.get("id", "")`/`field.get("name", "")` with a missing entry
represented by the empty string (it then fails `startswith("customfield_")`
exactly as in the source).  The three HTTP calls are parameters carrying
either the decoded JSON or the exception the `requests` call raised. -/

abbrev FieldMeta := String × String

/-- Iterating a dictionary / calling `.items()`; raises on anything else. -/
def pyItems (v : PyVal) : Except String Fields :=
  match v with
  | .dict d => .ok d
  | _ => .error "AttributeError"

/-- `isinstance(field_value, (int, float))`; a Python `bool` is an `int`,
so it passes the check. -/
def isNumericPy : PyVal → Bool
  | .int _ => true
  | .float _ => true
  | .bool _ => true
  | _ => false

/-- `field_value > 0` for the values that passed the isinstance check. -/
def pyPos : PyVal → Bool
  | .int n => decide (0 < n)
  | .float q => decide (0 < q)
  | .bool b => b
  | _ => false

/-- The lowercased names accepted by the anchored regexes
`^story points?$`, `^story point estimate$`, `^points?$` (with the final
`$`, `re.match` demands a full match; the `$`-before-trailing-newline corner
of Python regexes is not modelled). -/
def exact_pattern_names : List String :=
  ["story point", "story points", "story point estimate", "point", "points"]

def isExactMatch (nameLower : String) : Bool :=
  exact_pattern_names.contains nameLower

def partial_patterns : List String := ["story points", "story point", "estimate", "sp"]

def exclude_terms : List String :=
  ["sprint", "response", "chart", "date", "time", "ready", "spec"]

def isPartialMatch (nameLower : String) : Bool :=
  partial_patterns.any (fun p => containsSub nameLower p)

def hasExcludeTerm (nameLower : String) : Bool :=
  exclude_terms.any (fun t => containsSub nameLower t)

/-- A custom field whose lowercased name fully matches one of the exact
regexes. -/
def isExactField (f : FieldMeta) : Bool :=
  strStartsWith f.1 "customfield_" && isExactMatch (strLower f.2)

/-- A non-exact custom field whose lowercased name contains one of the
partial patterns and none of the excluded terms. -/
def isPartialField (f : FieldMeta) : Bool :=
  strStartsWith f.1 "customfield_" && !isExactMatch (strLower f.2) &&
    isPartialMatch (strLower f.2) && !hasExcludeTerm (strLower f.2)

/-- The `exact_matches` list built by the loop over `all_fields`
(lines 137-152), in metadata order. -/
def exact_matches (all_fields : List FieldMeta) : List FieldMeta :=
  all_fields.filter isExactField

/-- The `partial_matches` list (lines 154-162). -/
def partial_matches (all_fields : List FieldMeta) : List FieldMeta :=
  all_fields.filter isPartialField

def insertByKey (p : String × PyVal) : List (String × PyVal) → List (String × PyVal)
  | [] => [p]
  | q :: qs => if strLtB q.1 p.1 then q :: insertByKey p qs else p :: q :: qs

/-- `sorted(fields.items())`: a dict's keys are unique, so tuple comparison
never reaches the (possibly incomparable) values and this is a sort by key. -/
def sortByKey : List (String × PyVal) → List (String × PyVal)
  | [] => []
  | p :: ps => insertByKey p (sortByKey ps)

/-- `isinstance`-numeric custom field of the sample issue. -/
def isNumericCustom (p : String × PyVal) : Bool :=
  strStartsWith p.1 "customfield_" && isNumericPy p.2

/-- The `potential_fields` list (lines 98-103): numeric custom fields of the
sample issue in ascending key order. -/
def potential_fields (fields : Fields) : List (String × PyVal) :=
  (sortByKey fields).filter isNumericCustom

/-- The `RECOMMENDATION` logic (lines 189-207) with `potential_fields`
already computed; when `exact_matches` is empty,
`found_matches = exact_matches + partial_matches` is just `partial_matches`. -/
def recommendFrom (all_fields : List FieldMeta) (pf : List (String × PyVal)) : String :=
  match exact_matches all_fields with
  | (fid, _) :: _ => fid
  | [] =>
      match partial_matches all_fields with
      | (fid, _) :: _ => fid
      | [] =>
          match pf with
          | (fid, _) :: _ => fid
          | [] => "customfield_10016"

/-- The recommendation printed for a given field-metadata list and sample
issue `fields` dict. -/
def detect_recommendation (all_fields : List FieldMeta) (fields : Fields) : String :=
  recommendFrom all_fields (potential_fields fields)

/-- The scan of one candidate sample issue (lines 65-72): does any custom
field hold a positive numeric value? -/
def hasPosCustomField (flds : Fields) : Bool :=
  flds.any (fun p => strStartsWith p.1 "customfield_" && isNumericPy p.2 && pyPos p.2)

/-- The `for iss in data["issues"]` selection loop (lines 64-72); a raised
exception inside it is caught by the enclosing `try`. -/
def findSampleIssue : List PyVal → Except String (Option PyVal)
  | [] => .ok Option.none
  | iss :: rest =>
      match pyGetD iss "fields" (.dict []) with
      | .error e => .error e
      | .ok fv =>
          match pyItems fv with
          | .error e => .error e
          | .ok flds =>
              if hasPosCustomField flds then .ok (some iss)
              else findSampleIssue rest

/-- Iterating `data["issues"]`: a non-list truthy value either fails to
iterate or raises on the first element's `.get`, and the enclosing `try`
catches either; collapsed to an immediate error. -/
def asPyList (v : PyVal) : Except String (List PyVal) :=
  match v with
  | .list xs => .ok xs
  | _ => .error "TypeError"

/-- The body of the `elif sprint_id` branch after a successful fetch
(lines 58-75): `.ok Option.none` is the explicit `return None` for an empty
`"issues"`, `.error` is an exception the enclosing `try` will catch. -/
def sprintSelect (data : PyVal) : Except String (Option PyVal) :=
  match pyGet data "issues" with
  | .error e => .error e
  | .ok issuesVal =>
      if !truthy issuesVal then .ok Option.none
      else
        match asPyList issuesVal with
        | .error e => .error e
        | .ok issues =>
            match findSampleIssue issues with
            | .error e => .error e
            | .ok (some i) => .ok (some i)
            | .ok Option.none =>
                match issues with
                | i0 :: _ => .ok (some i0)
                | [] => .error "IndexError"

/-- Lines 85-219: analysis of the chosen sample issue, the field-metadata
fetch and the recommendation.  The accesses on lines 89-103 are outside any
`try`, so their exceptions propagate (`.error`); the metadata fetch is inside
the `try` whose handler (lines 214-219) falls back to `potential_fields`. -/
def detectAnalyze (issue : PyVal) (fetchFields : Except String (List FieldMeta)) :
    Except String (Option String) :=
  if !truthy issue then .ok Option.none
  else
    match pyGetD issue "key" (.str "Unknown") with
    | .error e => .error e
    | .ok _ =>
    match pyGetD issue "fields" (.dict []) with
    | .error e => .error e
    | .ok fieldsVal =>
    match pyItems fieldsVal with
    | .error e => .error e
    | .ok fields =>
        let pf := potential_fields fields
        match fetchFields with
        | .error _ =>
            match pf with
            | (fid, _) :: _ => .ok (some fid)
            | [] => .ok Option.none
        | .ok all_fields => .ok (some (recommendFrom all_fields pf))

/-- Truthiness of the `--issue-key` argument (a Python string). -/
def optStrTruthy : Option String → Bool
  | Option.none => false
  | some s => !s.isEmpty

/-- Truthiness of the `--sprint-id` argument (a Python int). -/
def optIntTruthy : Option ℤ → Bool
  | Option.none => false
  | some n => n != 0

/-- `detect_story_points_field` (lines 20-219).  The result is
`.ok Option.none` when the function returns `None`, `.ok (some fid)` when it
returns a recommendation, and `.error e` when it raises. -/
def detect_story_points_field (issue_key : Option String) (sprint_id : Option ℤ)
    (fetchIssue : Except String PyVal) (fetchSprint : Except String PyVal)
    (fetchFields : Except String (List FieldMeta)) : Except String (Option String) :=
  if optStrTruthy issue_key then
    match fetchIssue with
    | .error _ => .ok Option.none
    | .ok issue => detectAnalyze issue fetchFields
  else if optIntTruthy sprint_id then
    match fetchSprint with
    | .error _ => .ok Option.none
    | .ok data =>
        match sprintSelect data with
        | .error _ => .ok Option.none
        | .ok Option.none => .ok Option.none
        | .ok (some issue) => detectAnalyze issue fetchFields
  else .ok Option.none

/-! ## Theorems -/

theorem bucketUpdate_total_issues (sc il : String) (it : PyVal) (sp ct : ℚ) (m : AMetrics) :
    (bucketUpdate sc il it sp ct m).total_issues = m.total_issues + 1 := by
  rw [bucketUpdate]; dsimp only; split <;> split <;> (try split) <;> (first | rfl | simp_all)

theorem bucketUpdate_total_sp (sc il : String) (it : PyVal) (sp ct : ℚ) (m : AMetrics) :
    (bucketUpdate sc il it sp ct m).total_story_points = m.total_story_points + sp := by
  rw [bucketUpdate]; dsimp only; split <;> split <;> (try split) <;> (first | rfl | simp_all)

theorem bucketUpdate_completed_issues (sc il : String) (it : PyVal) (sp ct : ℚ) (m : AMetrics) :
    (bucketUpdate sc il it sp ct m).completed_issues
      = m.completed_issues + (if DONE_STATUS_CATEGORIES.contains sc then 1 else 0) := by
  rw [bucketUpdate]; dsimp only; split <;> split <;> (try split) <;> (first | rfl | simp_all)

theorem bucketUpdate_completed_sp (sc il : String) (it : PyVal) (sp ct : ℚ) (m : AMetrics) :
    (bucketUpdate sc il it sp ct m).completed_story_points
      = m.completed_story_points + (if DONE_STATUS_CATEGORIES.contains sc then sp else 0) := by
  rw [bucketUpdate]; dsimp only; split <;> split <;> (try split) <;> (first | rfl | simp_all)

theorem bucketUpdate_bug_count (sc il : String) (it : PyVal) (sp ct : ℚ) (m : AMetrics) :
    (bucketUpdate sc il it sp ct m).bug_count
      = m.bug_count + (if il == "bug" then 1 else 0) := by
  rw [bucketUpdate]; dsimp only; split <;> split <;> (try split) <;> (first | rfl | simp_all)

theorem bucketUpdate_story_count (sc il : String) (it : PyVal) (sp ct : ℚ) (m : AMetrics) :
    (bucketUpdate sc il it sp ct m).story_count
      = m.story_count + (if !(il == "bug") && (il == "story") then 1 else 0) := by
  rw [bucketUpdate]; dsimp only; split <;> split <;> (try split) <;> (first | rfl | simp_all)

theorem bucketUpdate_sp_list (sc il : String) (it : PyVal) (sp ct : ℚ) (m : AMetrics) :
    (bucketUpdate sc il it sp ct m).story_points_list = m.story_points_list ++ [sp] := by
  rw [bucketUpdate]; dsimp only; split <;> split <;> (try split) <;> (first | rfl | simp_all)

theorem bucketUpdate_cycle_times (sc il : String) (it : PyVal) (sp ct : ℚ) (m : AMetrics) :
    (bucketUpdate sc il it sp ct m).cycle_times
      = m.cycle_times
          ++ (if DONE_STATUS_CATEGORIES.contains sc ∧ 0 < ct then [ct] else []) := by
  rw [bucketUpdate]; dsimp only
  by_cases hc : (0 : ℚ) < ct <;>
    split <;> split <;> (try split) <;> simp_all [gt_iff_lt]

/-- Successful processing of one issue: all getters succeeded and the result
is the single-bucket update of the metrics map. -/
theorem processIssue_ok_shape (sp : String) (parse : String → Option (ℚ × Bool))
    (ms : Metrics) (i : Issue) (ms2 : Metrics)
    (h : processIssue sp parse ms i = .ok ms2) :
    ∃ a sc it il,
      get_assignee_name i = .ok a ∧ get_status_category i = .ok sc ∧
      get_issue_type i = .ok it ∧ pyLowerStr it = .ok il ∧
      ms2 = updEntry a
        (bucketUpdate sc il it (get_story_points sp i) (get_cycle_time_days parse i)) ms := by
  unfold processIssue at h
  cases ha : get_assignee_name i with
  | error e => rw [ha] at h; cases h
  | ok a =>
    rw [ha] at h
    cases hs : get_status_category i with
    | error e => rw [hs] at h; cases h
    | ok sc =>
      rw [hs] at h
      cases ht : get_issue_type i with
      | error e => rw [ht] at h; cases h
      | ok it =>
        rw [ht] at h
        dsimp only at h
        by_cases hh : (!pyHashable a || !pyHashable it) = true
        · rw [if_pos hh] at h; cases h
        · rw [if_neg hh] at h
          cases hl : pyLowerStr it with
          | error e => rw [hl] at h; cases h
          | ok il =>
            rw [hl] at h
            injection h with h2
            exact ⟨a, sc, it, il, rfl, rfl, rfl, hl, h2.symm⟩

/-- Updating one bucket changes a commutative-monoid-valued total of `g` over
all buckets by exactly the per-bucket change `d`. -/
theorem sumMap_updEntry {β : Type} [AddCommMonoid β] (g : AMetrics → β) (d : β)
    (f : AMetrics → AMetrics) (hf : ∀ m, g (f m) = g m + d) (h0 : g emptyAMetrics = 0)
    (k : PyVal) (ms : Metrics) :
    ((updEntry k f ms).map (fun e => g e.2)).sum = (ms.map (fun e => g e.2)).sum + d := by
  induction ms with
  | nil => simp [updEntry, hf, h0]
  | cons e rest ih =>
      rw [updEntry]
      by_cases h : pyScalarEq e.1 k
      · rw [if_pos h]
        simp only [List.map_cons, List.sum_cons, hf]
        rw [add_right_comm]
      · rw [if_neg h]
        simp only [List.map_cons, List.sum_cons, ih]
        rw [add_assoc]

theorem fetchIssuesLoop_eq_drop {α : Type} (all : List α) (s : ℕ) :
    fetchIssuesLoop all s = all.drop s := by
  rw [fetchIssuesLoop]
  split
  · next h =>
      have hlen : (all.drop s).length ≤ 100 := by
        simp only [List.length_drop]; omega
      exact List.take_of_length_le hlen
  · next h =>
      rw [fetchIssuesLoop_eq_drop all (s + 100)]
      have hdd : all.drop (s + 100) = (all.drop s).drop 100 := by
        rw [List.drop_drop, Nat.add_comm]
      rw [hdd, List.take_append_drop]
termination_by all.length - s
decreasing_by simp_all; omega

/-- C2: `fetch_issues_for_sprint` concatenates the successive 100-issue pages
(startAt 0, 100, 200, ...) until `startAt` reaches the server-reported total,
so against a consistent paginated server it returns exactly the sprint's full
issue list — no issue is omitted. -/
theorem fetch_issues_for_sprint_complete (all : List Issue) :
    fetch_issues_for_sprint all = all := by
  rw [fetch_issues_for_sprint, fetchIssuesLoop_eq_drop, List.drop_zero]

theorem foldl_addTotals_filter (t : SprintTotals) (ms : Metrics) :
    ms.foldl addTotals t
      = (ms.filter (fun e => !pyScalarEq e.1 (.str "Unassigned"))).foldl addTotals t := by
  induction ms generalizing t with
  | nil => rfl
  | cons e rest ih =>
      by_cases h : pyScalarEq e.1 (.str "Unassigned")
      · have he : addTotals t e = t := by rw [addTotals, if_pos h]
        simp [List.foldl_cons, List.filter_cons, h, he, ih]
      · simp [List.foldl_cons, List.filter_cons, h, ih]

/-- C8: `compute_sprint_totals` skips the `"Unassigned"` bucket entirely:
its result on any metrics map equals its result on the map with every
`"Unassigned"`-keyed bucket removed, so every sprint-summary figure derived
from it (completion percentages, team velocity, cycle times, bug and story
counts) ignores issues with no assignee. -/
theorem compute_sprint_totals_skips_unassigned (metrics : Metrics) :
    compute_sprint_totals metrics
      = compute_sprint_totals
          (metrics.filter (fun e => !pyScalarEq e.1 (.str "Unassigned"))) := by
  rw [compute_sprint_totals, compute_sprint_totals]
  exact foldl_addTotals_filter emptyTotals metrics

/-! Aggregate sums over the metrics map, used to state C1 and C3. -/

def sumTotalIssues (ms : Metrics) : ℕ := (ms.map (fun e => e.2.total_issues)).sum

def sumTotalSP (ms : Metrics) : ℚ := (ms.map (fun e => e.2.total_story_points)).sum

/-- The total completed story points over all buckets except `"Unassigned"`,
i.e. exactly what `compute_sprint_totals` accumulates into
`completed_story_points`. -/
def velSum (ms : Metrics) : ℚ :=
  ((ms.filter (fun e => !pyScalarEq e.1 (.str "Unassigned"))).map
    (fun e => e.2.completed_story_points)).sum

/-- The issue's status category is in `DONE_STATUS_CATEGORIES`. -/
def isDoneIssue (issue : Issue) : Bool :=
  match get_status_category issue with
  | .ok sc => DONE_STATUS_CATEGORIES.contains sc
  | .error _ => false

/-- The issue is grouped under the `"Unassigned"` bucket key. -/
def isUnassignedIssue (issue : Issue) : Bool :=
  match get_assignee_name issue with
  | .ok a => pyScalarEq a (.str "Unassigned")
  | .error _ => false

/-- Total story points of the completed issues that are not grouped under
`"Unassigned"`. -/
def doneAssignedSP (sp : String) (issues : List Issue) : ℚ :=
  ((issues.filter (fun i => isDoneIssue i && !isUnassignedIssue i)).map
    (get_story_points sp)).sum

theorem sumTotalIssues_updEntry (a : PyVal) (sc il : String) (it : PyVal)
    (sp ct : ℚ) (ms : Metrics) :
    sumTotalIssues (updEntry a (bucketUpdate sc il it sp ct) ms) = sumTotalIssues ms + 1 :=
  sumMap_updEntry (fun b => b.total_issues) 1 _
    (fun m => bucketUpdate_total_issues sc il it sp ct m) rfl a ms

theorem sumTotalSP_updEntry (a : PyVal) (sc il : String) (it : PyVal)
    (sp ct : ℚ) (ms : Metrics) :
    sumTotalSP (updEntry a (bucketUpdate sc il it sp ct) ms) = sumTotalSP ms + sp :=
  sumMap_updEntry (fun b => b.total_story_points) sp _
    (fun m => bucketUpdate_total_sp sc il it sp ct m) rfl a ms

theorem compute_metricsAux_sums (sp : String) (parse : String → Option (ℚ × Bool)) :
    ∀ (issues : List Issue) (ms m : Metrics),
      compute_metricsAux sp parse ms issues = .ok m →
      sumTotalIssues m = sumTotalIssues ms + issues.length ∧
      sumTotalSP m = sumTotalSP ms + (issues.map (get_story_points sp)).sum := by
  intro issues
  induction issues with
  | nil =>
      intro ms m h
      rw [compute_metricsAux] at h
      injection h with h2
      subst h2
      simp
  | cons i rest ih =>
      intro ms m h
      rw [compute_metricsAux] at h
      cases hp : processIssue sp parse ms i with
      | error e => rw [hp] at h; cases h
      | ok ms2 =>
          rw [hp] at h
          obtain ⟨a, sc, it, il, _, _, _, _, hshape⟩ :=
            processIssue_ok_shape sp parse ms i ms2 hp
          obtain ⟨h1, h2⟩ := ih ms2 m h
          subst hshape
          refine ⟨?_, ?_⟩
          · rw [h1, sumTotalIssues_updEntry]
            simp only [List.length_cons]
            omega
          · rw [h2, sumTotalSP_updEntry]
            simp only [List.map_cons, List.sum_cons]
            ring

/-- C3: grouping by assignee partitions the input: on any successful run of
`compute_metrics`, the bucket `total_issues` values sum to the number of
input issues, and the bucket `total_story_points` values sum to the total
`get_story_points` over all input issues. -/
theorem compute_metrics_partitions (sp : String) (parse : String → Option (ℚ × Bool))
    (issues : List Issue) (m : Metrics)
    (h : compute_metrics sp parse issues = .ok m) :
    sumTotalIssues m = issues.length ∧
    sumTotalSP m = (issues.map (get_story_points sp)).sum := by
  have h2 := compute_metricsAux_sums sp parse issues [] m h
  simpa [sumTotalIssues, sumTotalSP] using h2

/-- A mapping from `datetime.fromisoformat` used for concrete runs in which
no timestamp parses (the sample issues carry no `created`/`resolutiondate`). -/
def parseNone : String → Option (ℚ × Bool) := fun _ => Option.none

/-- A completed 5-point story assigned to Alice. -/
def wIssue1 : Issue := ⟨[
  ("assignee", .dict [("displayName", .str "Alice")]),
  ("status", .dict [("statusCategory", .dict [("key", .str "done")])]),
  ("issuetype", .dict [("name", .str "Story")]),
  ("customfield_10016", .float 5)]⟩

def c3WitnessMetrics : Metrics :=
  match compute_metrics "customfield_10016" parseNone [wIssue1] with
  | .ok m => m
  | .error _ => []

/-- Witness for C3 at a one-issue sprint. -/
theorem compute_metrics_partitions_witness :
    sumTotalIssues c3WitnessMetrics = [wIssue1].length ∧
    sumTotalSP c3WitnessMetrics
      = ([wIssue1].map (get_story_points "customfield_10016")).sum :=
  compute_metrics_partitions "customfield_10016" parseNone [wIssue1] c3WitnessMetrics rfl

/-- Keys equal under Python `==` compare equally against any string. -/
theorem pyScalarEq_str_congr (k a : PyVal) (u : String) (h : pyScalarEq k a = true) :
    pyScalarEq k (.str u) = pyScalarEq a (.str u) := by
  cases k <;> cases a <;> simp_all [pyScalarEq, pyNum?]

/-- `sumMap_updEntry` restricted to the buckets whose key is not the string
`u`: the per-bucket change lands in the sum only when the updated key is not
`u`. -/
theorem sumMapFilter_updEntry {β : Type} [AddCommMonoid β] (g : AMetrics → β) (d : β)
    (f : AMetrics → AMetrics) (hf : ∀ m, g (f m) = g m + d) (h0 : g emptyAMetrics = 0)
    (k : PyVal) (u : String) (ms : Metrics) :
    (((updEntry k f ms).filter (fun e => !pyScalarEq e.1 (.str u))).map
        (fun e => g e.2)).sum
      = ((ms.filter (fun e => !pyScalarEq e.1 (.str u))).map (fun e => g e.2)).sum
        + (if pyScalarEq k (.str u) then 0 else d) := by
  induction ms with
  | nil =>
      by_cases hk : pyScalarEq k (.str u) <;>
        simp [updEntry, List.filter_cons, hk, hf, h0]
  | cons e rest ih =>
      rw [updEntry]
      by_cases h : pyScalarEq e.1 k
      · rw [if_pos h]
        have hcong := pyScalarEq_str_congr e.1 k u h
        by_cases hk : pyScalarEq k (.str u)
        · simp [List.filter_cons, hcong, hk]
        · simp only [List.filter_cons, hcong, hk, Bool.not_false, if_pos,
            List.map_cons, List.sum_cons, hf]
          try rw [add_right_comm]
          try simp
      · rw [if_neg h]
        by_cases he : pyScalarEq e.1 (.str u)
        · simp [List.filter_cons, he, ih]
        · simp only [List.filter_cons, he, Bool.not_false, if_pos,
            List.map_cons, List.sum_cons, ih]
          try rw [add_assoc]
          try simp

theorem velSum_updEntry (a : PyVal) (sc il : String) (it : PyVal)
    (sp ct : ℚ) (ms : Metrics) :
    velSum (updEntry a (bucketUpdate sc il it sp ct) ms)
      = velSum ms
        + (if pyScalarEq a (.str "Unassigned") then 0
           else if DONE_STATUS_CATEGORIES.contains sc then sp else 0) :=
  sumMapFilter_updEntry (fun b => b.completed_story_points)
    (if DONE_STATUS_CATEGORIES.contains sc then sp else 0) _
    (fun m => bucketUpdate_completed_sp sc il it sp ct m) rfl a "Unassigned" ms

theorem foldl_addTotals_completed_sp (ms : Metrics) :
    ∀ t : SprintTotals,
      (ms.foldl addTotals t).completed_story_points
        = t.completed_story_points + velSum ms := by
  induction ms with
  | nil => intro t; simp [velSum]
  | cons e rest ih =>
      intro t
      rw [List.foldl_cons]
      by_cases h : pyScalarEq e.1 (.str "Unassigned")
      · have he : addTotals t e = t := by rw [addTotals, if_pos h]
        rw [he, ih]
        simp [velSum, List.filter_cons, h]
      · have he : (addTotals t e).completed_story_points
            = t.completed_story_points + e.2.completed_story_points := by
          rw [addTotals, if_neg h]
        rw [ih, he]
        simp [velSum, List.filter_cons, h, add_assoc]

/-- The `completed_story_points` sprint total is exactly the sum of the
per-bucket completed story points over the non-`"Unassigned"` buckets. -/
theorem compute_sprint_totals_completed_sp (ms : Metrics) :
    (compute_sprint_totals ms).completed_story_points = velSum ms := by
  rw [compute_sprint_totals, foldl_addTotals_completed_sp]
  simp [emptyTotals]

theorem compute_metricsAux_velocity (sp : String) (parse : String → Option (ℚ × Bool)) :
    ∀ (issues : List Issue) (ms m : Metrics),
      compute_metricsAux sp parse ms issues = .ok m →
      velSum m = velSum ms + doneAssignedSP sp issues := by
  intro issues
  induction issues with
  | nil =>
      intro ms m h
      rw [compute_metricsAux] at h
      injection h with h2
      subst h2
      simp [doneAssignedSP]
  | cons i rest ih =>
      intro ms m h
      rw [compute_metricsAux] at h
      cases hp : processIssue sp parse ms i with
      | error e => rw [hp] at h; cases h
      | ok ms2 =>
          rw [hp] at h
          obtain ⟨a, sc, it, il, ha, hs, ht, hl, hshape⟩ :=
            processIssue_ok_shape sp parse ms i ms2 hp
          have hrest := ih ms2 m h
          subst hshape
          rw [hrest, velSum_updEntry]
          have hdone : isDoneIssue i = DONE_STATUS_CATEGORIES.contains sc := by
            rw [isDoneIssue, hs]
          have hun : isUnassignedIssue i = pyScalarEq a (.str "Unassigned") := by
            rw [isUnassignedIssue, ha]
          by_cases h1 : pyScalarEq a (.str "Unassigned") <;>
            by_cases h2 : DONE_STATUS_CATEGORIES.contains sc = true <;>
              simp_all [doneAssignedSP, List.filter_cons] <;> ring

/-- A completed 5-point issue with no assignee. -/
def c1CxIssue : Issue :=
  ⟨[("status", .dict [("statusCategory", .dict [("key", .str "done")])]),
    ("customfield_10016", .float 5)]⟩

def c1CxMetrics : Metrics :=
  match compute_metrics "customfield_10016" parseNone [c1CxIssue] with
  | .ok m => m
  | .error _ => []

/-- C1 counterexample: a sprint whose single issue is completed, worth 5
story points, and has no assignee.  `write_csv` reports team velocity
`completed_story_points = 0`, while the total story points of the done
issues is `5`: the claimed equality fails. -/
theorem team_velocity_claim_false_on_unassigned :
    compute_metrics "customfield_10016" parseNone [c1CxIssue] = .ok c1CxMetrics ∧
    ¬ (team_velocity c1CxMetrics
        = (([c1CxIssue].filter isDoneIssue).map
            (get_story_points "customfield_10016")).sum) := by
  constructor
  · rfl
  · have hm : c1CxMetrics
        = [(.str "Unassigned",
            bucketUpdate (strLower "done") (strLower "Unknown") (.str "Unknown")
              (get_story_points "customfield_10016" c1CxIssue)
              (get_cycle_time_days parseNone c1CxIssue) emptyAMetrics)] := rfl
    have hv : team_velocity c1CxMetrics = 0 := by
      rw [hm, team_velocity, compute_sprint_totals]
      simp [addTotals, pyScalarEq, emptyTotals]
    have hd : isDoneIssue c1CxIssue = true := rfl
    have hsp : get_story_points "customfield_10016" c1CxIssue = 5 := rfl
    intro hcontra
    rw [hv] at hcontra
    simp only [List.filter_cons, List.filter_nil] at hcontra
    rw [hd] at hcontra
    simp only [if_pos, List.map_cons, List.map_nil, List.sum_cons, List.sum_nil, hsp] at hcontra
    norm_num at hcontra

/-- C1 (amended): the `"Team Velocity (Completed SP)"` value written by
`write_csv` equals the total story points of the completed (status category
in `DONE_STATUS_CATEGORIES`) issues that have an assignee (i.e. are not
grouped under the `"Unassigned"` bucket); issues with no assignee are
excluded by `compute_sprint_totals`. -/
theorem team_velocity_eq_done_assigned_sp (sp : String)
    (parse : String → Option (ℚ × Bool)) (issues : List Issue) (m : Metrics)
    (h : compute_metrics sp parse issues = .ok m) :
    team_velocity m = doneAssignedSP sp issues := by
  have h1 := compute_metricsAux_velocity sp parse issues [] m h
  rw [team_velocity, compute_sprint_totals_completed_sp, h1]
  simp [velSum]

def c1WitnessMetrics : Metrics :=
  match compute_metrics "customfield_10016" parseNone [wIssue1] with
  | .ok m => m
  | .error _ => []

/-- Witness for the amended C1 at a one-issue sprint. -/
theorem team_velocity_eq_done_assigned_sp_witness :
    team_velocity c1WitnessMetrics = doneAssignedSP "customfield_10016" [wIssue1] :=
  team_velocity_eq_done_assigned_sp "customfield_10016" parseNone [wIssue1]
    c1WitnessMetrics rfl

/-- The C10 per-bucket invariant, relative to a pool of issues the
cycle-time entries may originate from. -/
def bucketInv (parse : String → Option (ℚ × Bool)) (pool : List Issue)
    (b : AMetrics) : Prop :=
  b.completed_issues ≤ b.total_issues ∧
  b.bug_count + b.story_count ≤ b.total_issues ∧
  b.story_points_list.length = b.total_issues ∧
  ∀ c ∈ b.cycle_times, 0 < c ∧
    ∃ i ∈ pool, isDoneIssue i = true ∧ get_cycle_time_days parse i = c

theorem bucketInv_mono (parse : String → Option (ℚ × Bool))
    (pool pool' : List Issue) (hsub : ∀ i ∈ pool, i ∈ pool')
    (b : AMetrics) (h : bucketInv parse pool b) : bucketInv parse pool' b := by
  obtain ⟨h1, h2, h3, h4⟩ := h
  refine ⟨h1, h2, h3, fun c hc => ?_⟩
  obtain ⟨hpos, i, hi, hd, hct⟩ := h4 c hc
  exact ⟨hpos, i, hsub i hi, hd, hct⟩

theorem bucketInv_empty (parse : String → Option (ℚ × Bool)) (pool : List Issue) :
    bucketInv parse pool emptyAMetrics := by
  refine ⟨?_, ?_, ?_, ?_⟩ <;> simp [emptyAMetrics]

theorem bucketInv_bucketUpdate (parse : String → Option (ℚ × Bool))
    (pool : List Issue) (i : Issue) (sc il : String) (it : PyVal) (spv : ℚ)
    (b : AMetrics) (hs : get_status_category i = .ok sc)
    (hb : bucketInv parse pool b) :
    bucketInv parse (pool ++ [i])
      (bucketUpdate sc il it spv (get_cycle_time_days parse i) b) := by
  obtain ⟨h1, h2, h3, h4⟩ := hb
  refine ⟨?_, ?_, ?_, ?_⟩
  · rw [bucketUpdate_completed_issues, bucketUpdate_total_issues]
    split <;> omega
  · rw [bucketUpdate_bug_count, bucketUpdate_story_count, bucketUpdate_total_issues]
    by_cases hbug : (il == "bug") = true <;> simp [hbug] <;> (try split) <;> omega
  · rw [bucketUpdate_sp_list, bucketUpdate_total_issues]
    simp [h3]
  · intro c hc
    rw [bucketUpdate_cycle_times] at hc
    rcases List.mem_append.mp hc with hold | hnew
    · obtain ⟨hpos, j, hj, hd, hct⟩ := h4 c hold
      exact ⟨hpos, j, List.mem_append_left _ hj, hd, hct⟩
    · split at hnew
      · next hcond =>
          rcases List.mem_singleton.mp hnew with rfl
          refine ⟨hcond.2, i, List.mem_append_right _ (List.mem_singleton.mpr rfl), ?_, rfl⟩
          rw [isDoneIssue, hs]
          exact hcond.1
      · cases hnew

theorem metricsInv_updEntry (parse : String → Option (ℚ × Bool))
    (pool : List Issue) (i : Issue) (a : PyVal) (sc il : String) (it : PyVal)
    (spv : ℚ) (hs : get_status_category i = .ok sc) :
    ∀ (ms : Metrics), (∀ e ∈ ms, bucketInv parse pool e.2) →
      ∀ e ∈ updEntry a (bucketUpdate sc il it spv (get_cycle_time_days parse i)) ms,
        bucketInv parse (pool ++ [i]) e.2 := by
  intro ms
  induction ms with
  | nil =>
      intro _ e he
      rw [updEntry] at he
      rcases List.mem_singleton.mp he with rfl
      exact bucketInv_bucketUpdate parse pool i sc il it spv emptyAMetrics hs
        (bucketInv_empty parse pool)
  | cons p rest ih =>
      intro hms e he
      rw [updEntry] at he
      by_cases h : pyScalarEq p.1 a
      · rw [if_pos h] at he
        rcases List.mem_cons.mp he with rfl | hrest
        · exact bucketInv_bucketUpdate parse pool i sc il it spv p.2 hs
            (hms p (List.mem_cons_self p rest))
        · exact bucketInv_mono parse pool _ (fun j hj => List.mem_append_left _ hj) e.2
            (hms e (List.mem_cons_of_mem p hrest))
      · rw [if_neg h] at he
        rcases List.mem_cons.mp he with rfl | hrest
        · exact bucketInv_mono parse pool _ (fun j hj => List.mem_append_left _ hj) p.2
            (hms p (List.mem_cons_self p rest))
        · exact ih (fun e' he' => hms e' (List.mem_cons_of_mem p he')) e hrest

theorem compute_metricsAux_inv (sp : String) (parse : String → Option (ℚ × Bool)) :
    ∀ (issues pool : List Issue) (ms m : Metrics),
      compute_metricsAux sp parse ms issues = .ok m →
      (∀ e ∈ ms, bucketInv parse pool e.2) →
      ∀ e ∈ m, bucketInv parse (pool ++ issues) e.2 := by
  intro issues
  induction issues with
  | nil =>
      intro pool ms m h hms
      rw [compute_metricsAux] at h
      injection h with h2
      subst h2
      simpa using hms
  | cons i rest ih =>
      intro pool ms m h hms
      rw [compute_metricsAux] at h
      cases hp : processIssue sp parse ms i with
      | error e => rw [hp] at h; cases h
      | ok ms2 =>
          rw [hp] at h
          obtain ⟨a, sc, it, il, ha, hs, ht, hl, hshape⟩ :=
            processIssue_ok_shape sp parse ms i ms2 hp
          subst hshape
          have h2 := metricsInv_updEntry parse pool i a sc il it
            (get_story_points sp i) hs ms hms
          have h3 := ih (pool ++ [i]) _ m h h2
          intro e he
          have h4 := h3 e he
          rw [List.append_assoc, List.singleton_append] at h4
          exact h4

/-- C10: on every successful run of `compute_metrics`, each assignee bucket
satisfies `completed_issues ≤ total_issues`,
`bug_count + story_count ≤ total_issues`,
`story_points_list.length = total_issues`, and every entry of `cycle_times`
is strictly positive and is the cycle time of some input issue whose status
category is in `DONE_STATUS_CATEGORIES`. -/
theorem compute_metrics_bucket_invariants (sp : String)
    (parse : String → Option (ℚ × Bool)) (issues : List Issue) (m : Metrics)
    (h : compute_metrics sp parse issues = .ok m) :
    ∀ e ∈ m,
      e.2.completed_issues ≤ e.2.total_issues ∧
      e.2.bug_count + e.2.story_count ≤ e.2.total_issues ∧
      e.2.story_points_list.length = e.2.total_issues ∧
      ∀ c ∈ e.2.cycle_times, 0 < c ∧
        ∃ i ∈ issues, isDoneIssue i = true ∧ get_cycle_time_days parse i = c := by
  have h2 := compute_metricsAux_inv sp parse issues [] [] m h (by simp)
  simpa [bucketInv] using h2

/-- A `datetime.fromisoformat` model mapping the two timestamps of the C10
witness issue: creation at epoch 0 and resolution 2.5 days (216000 s) later,
both carrying a UTC offset. -/
def parseTest : String → Option (ℚ × Bool) := fun s =>
  if s == "2024-01-01T00:00:00+00:00" then some (0, true)
  else if s == "2024-01-03T12:00:00+00:00" then some (216000, true)
  else Option.none

/-- A completed 3-point bug with a 2.5-day cycle time, assigned to Bob. -/
def wIssue2 : Issue := ⟨[
  ("assignee", .dict [("displayName", .str "Bob")]),
  ("status", .dict [("statusCategory", .dict [("key", .str "done")])]),
  ("issuetype", .dict [("name", .str "Bug")]),
  ("created", .str "2024-01-01T00:00:00Z"),
  ("resolutiondate", .str "2024-01-03T12:00:00Z"),
  ("customfield_10016", .float 3)]⟩

def c10WitnessMetrics : Metrics :=
  match compute_metrics "customfield_10016" parseTest [wIssue2] with
  | .ok m => m
  | .error _ => []

/-- Bob's bucket in the C10 witness run. -/
def c10WitnessBucket : PyVal × AMetrics :=
  match c10WitnessMetrics with
  | e :: _ => e
  | [] => (.str "", emptyAMetrics)

/-- Witness for C10 at a one-issue sprint with a genuine cycle time. -/
theorem compute_metrics_bucket_invariants_witness :
    c10WitnessBucket.2.completed_issues ≤ c10WitnessBucket.2.total_issues ∧
    c10WitnessBucket.2.bug_count + c10WitnessBucket.2.story_count
      ≤ c10WitnessBucket.2.total_issues ∧
    c10WitnessBucket.2.story_points_list.length = c10WitnessBucket.2.total_issues ∧
    (∀ c ∈ c10WitnessBucket.2.cycle_times, 0 < c ∧
      ∃ i ∈ [wIssue2], isDoneIssue i = true ∧ get_cycle_time_days parseTest i = c) :=
  compute_metrics_bucket_invariants "customfield_10016" parseTest [wIssue2]
    c10WitnessMetrics rfl c10WitnessBucket (List.Mem.head _)

/-- C4 (amended): when `created` and `resolutiondate` are both present,
non-empty and parseable, and the two timestamps agree on carrying a UTC
offset, `get_cycle_time_days` returns the elapsed seconds divided by
`24*3600` and rounded to one decimal; when either field is missing, falsy or
unparseable it returns `0.0`; and when both parse but exactly one of the two
timestamps carries a UTC offset it also returns `0.0`, since `datetime`
subtraction then raises a `TypeError` that the handler catches. -/
theorem get_cycle_time_days_spec (parse : String → Option (ℚ × Bool)) (issue : Issue) :
    (∀ (c r : String) (t1 : ℚ) (a1 : Bool) (t2 : ℚ) (a2 : Bool),
        dget issue.fields "created" = .str c →
        dget issue.fields "resolutiondate" = .str r →
        truthy (.str c) = true → truthy (.str r) = true →
        parse (replaceZ c) = some (t1, a1) →
        parse (replaceZ r) = some (t2, a2) →
        a2 = a1 →
        get_cycle_time_days parse issue = pyRound1 ((t2 - t1) / (24 * 3600))) ∧
    ((!truthy (dget issue.fields "created")
        || !truthy (dget issue.fields "resolutiondate")) = true →
      get_cycle_time_days parse issue = 0) ∧
    (∀ (c r : String),
        dget issue.fields "created" = .str c →
        dget issue.fields "resolutiondate" = .str r →
        (parse (replaceZ c) = Option.none ∨ parse (replaceZ r) = Option.none) →
        get_cycle_time_days parse issue = 0) ∧
    (∀ (c r : String) (t1 : ℚ) (a1 : Bool) (t2 : ℚ) (a2 : Bool),
        dget issue.fields "created" = .str c →
        dget issue.fields "resolutiondate" = .str r →
        parse (replaceZ c) = some (t1, a1) →
        parse (replaceZ r) = some (t2, a2) →
        a2 ≠ a1 →
        get_cycle_time_days parse issue = 0) := by
  refine ⟨?_, ?_, ?_, ?_⟩
  · intro c r t1 a1 t2 a2 hc hr htc htr hpc hpr haw
    rw [get_cycle_time_days, hc, hr]
    simp only [htc, htr, Bool.not_true, Bool.or_self, Bool.false_eq_true, if_false]
    rw [hpc, hpr]
    simp [haw]
  · intro hfalsy
    rw [get_cycle_time_days, hfalsy]
    rfl
  · intro c r hc hr hun
    rw [get_cycle_time_days, hc, hr]
    by_cases hb : (!truthy (PyVal.str c) || !truthy (PyVal.str r)) = true
    · rw [if_pos hb]
    · rw [if_neg hb]
      dsimp only
      rcases hun with h | h
      · rw [h]
        try (cases parse (replaceZ r) <;> rfl)
      · rw [h]
        try (cases parse (replaceZ c) <;> rfl)
  · intro c r t1 a1 t2 a2 hc hr hpc hpr hne
    rw [get_cycle_time_days, hc, hr]
    by_cases hb : (!truthy (PyVal.str c) || !truthy (PyVal.str r)) = true
    · rw [if_pos hb]
    · rw [if_neg hb]
      dsimp only
      rw [hpc, hpr]
      dsimp only
      rw [if_neg (by simp [hne])]

/-- A `datetime.fromisoformat` model for the C4 counterexample: the creation
timestamp is offset-naive, the resolution timestamp offset-aware, both
parseable. -/
def parseMixed : String → Option (ℚ × Bool) := fun s =>
  if s == "2024-01-01T00:00:00" then some (0, false)
  else if s == "2024-01-02T00:00:00+00:00" then some (86400, true)
  else Option.none

def c4CxIssue : Issue := ⟨[
  ("created", .str "2024-01-01T00:00:00"),
  ("resolutiondate", .str "2024-01-02T00:00:00Z")]⟩

/-- C4 counterexample: both timestamps are present and parseable ISO-8601,
but one is offset-naive and the other offset-aware; `datetime` subtraction
raises `TypeError`, the handler returns `0.0`, while the claim predicts the
rounded elapsed time `1.0` day. -/
theorem get_cycle_time_days_claim_false_on_mixed_offsets :
    dget c4CxIssue.fields "created" = .str "2024-01-01T00:00:00" ∧
    dget c4CxIssue.fields "resolutiondate" = .str "2024-01-02T00:00:00Z" ∧
    parseMixed (replaceZ "2024-01-01T00:00:00") = some (0, false) ∧
    parseMixed (replaceZ "2024-01-02T00:00:00Z") = some (86400, true) ∧
    get_cycle_time_days parseMixed c4CxIssue = 0 ∧
    ¬ (get_cycle_time_days parseMixed c4CxIssue
        = pyRound1 ((86400 - 0) / (24 * 3600))) := by
  refine ⟨rfl, rfl, rfl, rfl, rfl, ?_⟩
  have h0 : get_cycle_time_days parseMixed c4CxIssue = 0 := rfl
  rw [h0]
  have h1 : ((86400 - 0 : ℚ) / (24 * 3600)) = 1 := by norm_num
  rw [h1]
  rw [pyRound1, roundHalfEven]
  norm_num

/-- Witness for the amended C4: the two aware timestamps of `wIssue2`, 2.5
days apart. -/
theorem get_cycle_time_days_spec_witness :
    get_cycle_time_days parseTest wIssue2 = pyRound1 ((216000 - 0) / (24 * 3600)) :=
  (get_cycle_time_days_spec parseTest wIssue2).1
    "2024-01-01T00:00:00Z" "2024-01-03T12:00:00Z" 0 true 216000 true
    rfl rfl rfl rfl rfl rfl rfl

/-- C9 counterexample: an issue whose `fields` entry is a dictionary but
whose `assignee` value is a (truthy) string; `assignee.get("displayName")`
on line 104 raises `AttributeError`, so `get_assignee_name` raises instead
of returning — the claim's unconditional totality fails. -/
theorem get_assignee_name_raises_on_nondict_assignee :
    get_assignee_name ⟨[("assignee", .str "bob")]⟩ = .error "AttributeError" := rfl

/-- C9 (amended): for every issue whose `fields` entry is a dictionary,
whose `assignee` value is absent, null or a dictionary (the `is None` guard
on line 102, unlike the `or {}` pattern, does not neutralize other falsy
values, so any non-dict non-null assignee — truthy or falsy — would raise),
whose `status`, `statusCategory` and `issuetype` values, when truthy, are
dictionaries, whose stored `statusCategory.key` is a string, and whose
truthy `displayName`/`emailAddress` are strings: `get_assignee_name`,
`get_status_category` and `get_issue_type` return without raising and
`get_assignee_name` returns a non-empty string; unconditionally,
`get_story_points` is total and returns `0.0` for a missing, null or
non-numeric value (and `get_cycle_time_days` is total by construction,
every exception being caught). -/
theorem getters_total_on_wellshaped (issue : Issue)
    (hassignee : dget issue.fields "assignee" = .none ∨
      ∃ d, dget issue.fields "assignee" = .dict d)
    (hdn : ∀ d, dget issue.fields "assignee" = .dict d →
      truthy (dget d "displayName") = true → ∃ s, dget d "displayName" = .str s)
    (hem : ∀ d, dget issue.fields "assignee" = .dict d →
      truthy (dget d "emailAddress") = true → ∃ s, dget d "emailAddress" = .str s)
    (hstatus : truthy (dget issue.fields "status") = true →
      ∃ d, dget issue.fields "status" = .dict d)
    (hsc : ∀ d, dget issue.fields "status" = .dict d →
      truthy (dget d "statusCategory") = true → ∃ d2, dget d "statusCategory" = .dict d2)
    (hkey : ∀ d d2, dget issue.fields "status" = .dict d →
      dget d "statusCategory" = .dict d2 →
      ∀ v, dget? d2 "key" = some v → ∃ s, v = .str s)
    (hit : truthy (dget issue.fields "issuetype") = true →
      ∃ d, dget issue.fields "issuetype" = .dict d) :
    (∃ s, get_assignee_name issue = .ok (.str s) ∧ s ≠ "") ∧
    (∃ sc, get_status_category issue = .ok sc) ∧
    (∃ t, get_issue_type issue = .ok t) ∧
    (∀ sp_field, dget issue.fields sp_field = .none →
      get_story_points sp_field issue = 0) ∧
    (∀ sp_field v, dget issue.fields sp_field = v → pyFloat v = Option.none →
      get_story_points sp_field issue = 0) := by
  refine ⟨?_, ?_, ?_, ?_, ?_⟩
  · rw [get_assignee_name]
    rcases hassignee with hnone | ⟨d, hd⟩
    · rw [hnone]
      exact ⟨"Unassigned", rfl, by decide⟩
    · rw [hd]
      dsimp only [pyGet]
      by_cases hdt : truthy (dget d "displayName") = true
      · obtain ⟨s, hs⟩ := hdn d hd hdt
        rw [hs] at hdt ⊢
        rw [if_pos hdt]
        refine ⟨s, rfl, ?_⟩
        intro hemp
        subst hemp
        simp [truthy, String.isEmpty] at hdt
      · rw [if_neg hdt]
        by_cases het : truthy (dget d "emailAddress") = true
        · obtain ⟨s, hs⟩ := hem d hd het
          rw [hs] at het ⊢
          rw [if_pos het]
          refine ⟨s, rfl, ?_⟩
          intro hemp
          subst hemp
          simp [truthy, String.isEmpty] at het
        · rw [if_neg het]
          exact ⟨"Unknown", rfl, by decide⟩
  · rw [get_status_category]
    by_cases hst : truthy (dget issue.fields "status") = true
    · obtain ⟨d, hd⟩ := hstatus hst
      rw [hd] at hst ⊢
      rw [if_pos hst]
      dsimp only [pyGet]
      by_cases hsct : truthy (dget d "statusCategory") = true
      · obtain ⟨d2, hd2⟩ := hsc d hd hsct
        rw [hd2] at hsct ⊢
        rw [if_pos hsct]
        dsimp only [pyGetD, dgetD]
        cases hv : dget? d2 "key" with
        | none => exact ⟨strLower "", rfl⟩
        | some v =>
            obtain ⟨s, hs⟩ := hkey d d2 hd hd2 v hv
            subst hs
            exact ⟨strLower s, rfl⟩
      · rw [if_neg hsct]
        dsimp only [pyGetD, dgetD, dget?]
        exact ⟨strLower "", rfl⟩
    · rw [if_neg hst]
      dsimp only [pyGet, dget, dget?]
      simp only [List.find?_nil, Option.map_none, Option.getD_none]
      exact ⟨strLower "", rfl⟩
  · rw [get_issue_type]
    by_cases hitt : truthy (dget issue.fields "issuetype") = true
    · obtain ⟨d, hd⟩ := hit hitt
      rw [hd] at hitt ⊢
      rw [if_pos hitt]
      exact ⟨dgetD d "name" (.str "Unknown"), rfl⟩
    · rw [if_neg hitt]
      exact ⟨dgetD [] "name" (.str "Unknown"), rfl⟩
  · intro sp_field hnone
    rw [get_story_points, hnone]
  · intro sp_field v hv hfl
    rw [get_story_points, hv]
    cases v <;> simp_all [pyFloat]

/-- Witness for the amended C9 at `wIssue2` (dictionary-shaped assignee,
status and issuetype; story-points field holding a float; a dict-valued
extra field would be non-numeric). -/
theorem getters_total_on_wellshaped_witness :
    (∃ s, get_assignee_name wIssue2 = .ok (.str s) ∧ s ≠ "") ∧
    (∃ sc, get_status_category wIssue2 = .ok sc) ∧
    (∃ t, get_issue_type wIssue2 = .ok t) ∧
    (∀ sp_field, dget wIssue2.fields sp_field = .none →
      get_story_points sp_field wIssue2 = 0) ∧
    (∀ sp_field v, dget wIssue2.fields sp_field = v → pyFloat v = Option.none →
      get_story_points sp_field wIssue2 = 0) := by
  apply getters_total_on_wellshaped wIssue2
  · exact Or.inr ⟨[("displayName", .str "Bob")], rfl⟩
  · intro d hd ht
    have hd2 : PyVal.dict [("displayName", PyVal.str "Bob")] = PyVal.dict d := by
      rw [← hd]; rfl
    injection hd2 with h
    subst h
    exact ⟨"Bob", rfl⟩
  · intro d hd ht
    have hd2 : PyVal.dict [("displayName", PyVal.str "Bob")] = PyVal.dict d := by
      rw [← hd]; rfl
    injection hd2 with h
    subst h
    cases ht
  · intro _
    exact ⟨[("statusCategory", .dict [("key", .str "done")])], rfl⟩
  · intro d hd ht
    have hd2 : PyVal.dict [("statusCategory", PyVal.dict [("key", PyVal.str "done")])]
        = PyVal.dict d := by
      rw [← hd]; rfl
    injection hd2 with h
    subst h
    exact ⟨[("key", .str "done")], rfl⟩
  · intro d d2 hd hd2 v hv
    have hda : PyVal.dict [("statusCategory", PyVal.dict [("key", PyVal.str "done")])]
        = PyVal.dict d := by
      rw [← hd]; rfl
    injection hda with h
    subst h
    have hdb : PyVal.dict [("key", PyVal.str "done")] = PyVal.dict d2 := by
      rw [← hd2]; rfl
    injection hdb with h2
    subst h2
    have hv2 : some (PyVal.str "done") = some v := by rw [← hv]; rfl
    injection hv2 with h3
    subst h3
    exact ⟨"done", rfl⟩
  · intro _
    exact ⟨[("name", .str "Bug")], rfl⟩

/-! Lemmas on the detector's ranking (C6): the head of a filtered list is
the first match, and insertion sort by key puts the alphabetically smallest
qualifying key first. -/

theorem filter_head?_eq_find? {α : Type} (p : α → Bool) (l : List α) :
    (l.filter p).head? = l.find? p := by
  induction l with
  | nil => rfl
  | cons a t ih =>
      by_cases h : p a = true
      · rw [List.filter_cons_of_pos h, List.find?_cons_of_pos t h]
        rfl
      · rw [List.filter_cons_of_neg (by simp [h]), List.find?_cons_of_neg t (by simp [h]), ih]

theorem charListLt_irrefl (x : List Char) : charListLt x x = false := by
  induction x with
  | nil => rfl
  | cons c cs ih => simp [charListLt, ih]

theorem charListLt_of_lt_of_not_lt (a : List Char) :
    ∀ b c : List Char, charListLt a b = true → charListLt c b = false →
      charListLt a c = true := by
  induction a with
  | nil =>
      intro b c hab hcb
      cases b with
      | nil => simp [charListLt] at hab
      | cons y ys =>
          cases c with
          | nil => simp [charListLt] at hcb
          | cons z zs => simp [charListLt]
  | cons x xs ih =>
      intro b c hab hcb
      cases b with
      | nil => simp [charListLt] at hab
      | cons y ys =>
          cases c with
          | nil => simp [charListLt] at hcb
          | cons z zs =>
              simp only [charListLt, Bool.or_eq_true, decide_eq_true_eq,
                Bool.and_eq_true, beq_iff_eq] at hab ⊢
              rw [charListLt, Bool.or_eq_false_iff] at hcb
              obtain ⟨hzy, hzy2⟩ := hcb
              rw [decide_eq_false_iff_not] at hzy
              rcases hab with hxy | ⟨hxy, hxsys⟩
              · left; omega
              · by_cases hxz : x.toNat < z.toNat
                · left; exact hxz
                · right
                  have hxz2 : x.toNat = z.toNat := by omega
                  refine ⟨hxz2, ?_⟩
                  have hzys : charListLt zs ys = false := by
                    rcases Bool.and_eq_false_iff.mp hzy2 with h | h
                    · exfalso
                      have : (z.toNat == y.toNat) = true := by
                        rw [beq_iff_eq]; omega
                      rw [this] at h; cases h
                    · exact h
                  exact ih ys zs hxsys hzys

theorem charListLt_asymm (x : List Char) :
    ∀ y : List Char, charListLt x y = true → charListLt y x = false := by
  induction x with
  | nil =>
      intro y hxy
      cases y with
      | nil => simp [charListLt] at hxy
      | cons d ds => simp [charListLt]
  | cons c cs ih =>
      intro y hxy
      cases y with
      | nil => simp [charListLt] at hxy
      | cons d ds =>
          simp only [charListLt, Bool.or_eq_true, decide_eq_true_eq,
            Bool.and_eq_true, beq_iff_eq] at hxy
          rw [charListLt, Bool.or_eq_false_iff]
          constructor
          · rw [decide_eq_false_iff_not]
            rcases hxy with h | ⟨h1, _⟩ <;> omega
          · rw [Bool.and_eq_false_iff]
            rcases hxy with h | ⟨h1, h2⟩
            · left
              rw [beq_eq_false_iff_ne]
              omega
            · right
              exact ih ds h2

theorem strLtB_irrefl (s : String) : strLtB s s = false := by
  rw [strLtB]; exact charListLt_irrefl _

theorem mem_insertByKey (p q : String × PyVal) :
    ∀ l : List (String × PyVal), q ∈ insertByKey p l ↔ q = p ∨ q ∈ l := by
  intro l
  induction l with
  | nil => simp [insertByKey]
  | cons r rs ih =>
      rw [insertByKey]
      split
      · simp only [List.mem_cons, ih]
        try tauto
      · simp only [List.mem_cons]
        try tauto

theorem mem_sortByKey (q : String × PyVal) :
    ∀ l : List (String × PyVal), q ∈ sortByKey l ↔ q ∈ l := by
  intro l
  induction l with
  | nil => simp [sortByKey]
  | cons p ps ih =>
      rw [sortByKey, mem_insertByKey]
      simp [ih]

/-- The order insertion sort maintains: no later entry's key is
alphabetically smaller. -/
def KeySorted (l : List (String × PyVal)) : Prop :=
  l.Pairwise (fun a b => strLtB b.1 a.1 = false)

theorem insertByKey_sorted (p : String × PyVal) :
    ∀ l : List (String × PyVal), KeySorted l → KeySorted (insertByKey p l) := by
  intro l
  induction l with
  | nil =>
      intro _
      exact List.pairwise_singleton _ _
  | cons q qs ih =>
      intro hl
      rw [KeySorted, List.pairwise_cons] at hl
      obtain ⟨hq, hqs⟩ := hl
      rw [insertByKey]
      split
      · next hlt =>
          rw [KeySorted, List.pairwise_cons]
          refine ⟨?_, ih hqs⟩
          intro r hr
          rcases (mem_insertByKey p r qs).mp hr with rfl | hrq
          · rw [strLtB] at hlt ⊢
            exact charListLt_asymm _ _ hlt
          · exact hq r hrq
      · next hnlt =>
          rw [KeySorted, List.pairwise_cons]
          refine ⟨?_, List.pairwise_cons.mpr ⟨hq, hqs⟩⟩
          intro r hr
          rcases List.mem_cons.mp hr with rfl | hrq
          · exact Bool.of_not_eq_true hnlt
          · -- r is after q, so q's key is not greater than r's; p's key is
            -- not greater than q's; keys are totally ordered, so p ≤ r.
            have hrq2 := hq r hrq
            by_cases hcon : strLtB r.1 p.1 = true
            · exfalso
              have hpq : strLtB q.1 p.1 = false := Bool.of_not_eq_true hnlt
              rw [strLtB] at hcon hpq hrq2
              have := charListLt_of_lt_of_not_lt r.1.toList p.1.toList q.1.toList hcon hpq
              rw [this] at hrq2
              cases hrq2
            · exact Bool.of_not_eq_true hcon

theorem sortByKey_sorted : ∀ l : List (String × PyVal), KeySorted (sortByKey l) := by
  intro l
  induction l with
  | nil => exact List.Pairwise.nil
  | cons p ps ih => exact insertByKey_sorted p (sortByKey ps) ih

/-- The keys of the sample issue's numeric custom fields, in dictionary
order (no sorting): the set of candidates C6's third stage quantifies over. -/
def numericCustomKeys (fields : Fields) : List String :=
  (fields.filter isNumericCustom).map (fun p => p.1)

theorem mem_numericCustomKeys (fields : Fields) (k : String) :
    k ∈ numericCustomKeys fields ↔
      ∃ p, p ∈ fields ∧ isNumericCustom p = true ∧ p.1 = k := by
  rw [numericCustomKeys]
  simp only [List.mem_map, List.mem_filter]
  constructor
  · rintro ⟨p, ⟨hp, hn⟩, hk⟩
    exact ⟨p, hp, hn, hk⟩
  · rintro ⟨p, hp, hn, hk⟩
    exact ⟨p, ⟨hp, hn⟩, hk⟩

theorem exact_matches_head? (all_fields : List FieldMeta) :
    (exact_matches all_fields).head? = all_fields.find? isExactField :=
  filter_head?_eq_find? isExactField all_fields

theorem partial_matches_head? (all_fields : List FieldMeta) :
    (partial_matches all_fields).head? = all_fields.find? isPartialField :=
  filter_head?_eq_find? isPartialField all_fields

/-- C6 (amended): the ranked recommendation: the identifier of the first
metadata custom field whose name exactly matches a story-points pattern
case-insensitively, if any; otherwise the first partial name match not
containing an excluded term; otherwise the alphabetically smallest
custom-field key of the sample issue whose value passes Python's
`isinstance(v, (int, float))` — which, `bool` being a subclass of `int`,
admits booleans as well as numbers; otherwise the literal default
`"customfield_10016"`. -/
theorem detect_recommendation_ranked (all_fields : List FieldMeta) (fields : Fields) :
    (∀ f, all_fields.find? isExactField = some f →
      detect_recommendation all_fields fields = f.1) ∧
    (all_fields.find? isExactField = Option.none →
      ∀ f, all_fields.find? isPartialField = some f →
        detect_recommendation all_fields fields = f.1) ∧
    (all_fields.find? isExactField = Option.none →
      all_fields.find? isPartialField = Option.none →
      numericCustomKeys fields ≠ [] →
      detect_recommendation all_fields fields ∈ numericCustomKeys fields ∧
      ∀ k ∈ numericCustomKeys fields,
        strLtB k (detect_recommendation all_fields fields) = false) ∧
    (all_fields.find? isExactField = Option.none →
      all_fields.find? isPartialField = Option.none →
      numericCustomKeys fields = [] →
      detect_recommendation all_fields fields = "customfield_10016") := by
  refine ⟨?_, ?_, ?_, ?_⟩
  · intro f hf
    have hhead : (exact_matches all_fields).head? = some f := by
      rw [exact_matches_head?, hf]
    cases hem : exact_matches all_fields with
    | nil => rw [hem] at hhead; cases hhead
    | cons f0 t =>
        rw [hem] at hhead
        injection hhead with h0
        subst h0
        rcases f0 with ⟨k, v⟩
        rw [detect_recommendation, recommendFrom.eq_def, hem]
  · intro hex f hf
    have hemNil : exact_matches all_fields = [] := by
      have h2 : (exact_matches all_fields).head? = Option.none := by
        rw [exact_matches_head?, hex]
      cases hem : exact_matches all_fields with
      | nil => rfl
      | cons f0 t => rw [hem] at h2; cases h2
    have hhead : (partial_matches all_fields).head? = some f := by
      rw [partial_matches_head?, hf]
    cases hpm : partial_matches all_fields with
    | nil => rw [hpm] at hhead; cases hhead
    | cons f0 t =>
        rw [hpm] at hhead
        injection hhead with h0
        subst h0
        rcases f0 with ⟨k, v⟩
        rw [detect_recommendation, recommendFrom.eq_def, hemNil, hpm]
  · intro hex hpar hne
    have hemNil : exact_matches all_fields = [] := by
      have h2 : (exact_matches all_fields).head? = Option.none := by
        rw [exact_matches_head?, hex]
      cases hem : exact_matches all_fields with
      | nil => rfl
      | cons f0 t => rw [hem] at h2; cases h2
    have hpmNil : partial_matches all_fields = [] := by
      have h2 : (partial_matches all_fields).head? = Option.none := by
        rw [partial_matches_head?, hpar]
      cases hpm : partial_matches all_fields with
      | nil => rfl
      | cons f0 t => rw [hpm] at h2; cases h2
    have hpfne : potential_fields fields ≠ [] := by
      intro hempty
      obtain ⟨k, hk⟩ := List.exists_mem_of_ne_nil _ hne
      rw [mem_numericCustomKeys] at hk
      obtain ⟨p, hp, hnum, hpk⟩ := hk
      have hmem : p ∈ potential_fields fields := by
        rw [potential_fields, List.mem_filter, mem_sortByKey]
        exact ⟨hp, hnum⟩
      rw [hempty] at hmem
      cases hmem
    cases hpf : potential_fields fields with
    | nil => exact absurd hpf hpfne
    | cons p0 t =>
        rcases p0 with ⟨k0, v0⟩
        have hrec : detect_recommendation all_fields fields = k0 := by
          rw [detect_recommendation, recommendFrom.eq_def, hemNil, hpmNil, hpf]
        rw [hrec]
        have hk0mem : (k0, v0) ∈ potential_fields fields := by
          rw [hpf]; exact List.mem_cons_self _ _
        constructor
        · rw [mem_numericCustomKeys]
          rw [potential_fields, List.mem_filter, mem_sortByKey] at hk0mem
          exact ⟨(k0, v0), hk0mem.1, hk0mem.2, rfl⟩
        · intro k hk
          rw [mem_numericCustomKeys] at hk
          obtain ⟨p, hp, hnum, hpk⟩ := hk
          have hmem : p ∈ potential_fields fields := by
            rw [potential_fields, List.mem_filter, mem_sortByKey]
            exact ⟨hp, hnum⟩
          rw [hpf] at hmem
          rcases List.mem_cons.mp hmem with rfl | ht
          · rw [← hpk]
            exact strLtB_irrefl k0
          · have hsorted : (potential_fields fields).Pairwise
                (fun a b => strLtB b.1 a.1 = false) :=
              List.Pairwise.filter isNumericCustom (sortByKey_sorted fields)
            rw [hpf, List.pairwise_cons] at hsorted
            have := hsorted.1 p ht
            rw [hpk] at this
            exact this
  · intro hex hpar hkeys
    have hemNil : exact_matches all_fields = [] := by
      have h2 : (exact_matches all_fields).head? = Option.none := by
        rw [exact_matches_head?, hex]
      cases hem : exact_matches all_fields with
      | nil => rfl
      | cons f0 t => rw [hem] at h2; cases h2
    have hpmNil : partial_matches all_fields = [] := by
      have h2 : (partial_matches all_fields).head? = Option.none := by
        rw [partial_matches_head?, hpar]
      cases hpm : partial_matches all_fields with
      | nil => rfl
      | cons f0 t => rw [hpm] at h2; cases h2
    have hpfNil : potential_fields fields = [] := by
      cases hpf : potential_fields fields with
      | nil => rfl
      | cons p0 t =>
          exfalso
          have hm : p0 ∈ potential_fields fields := by
            rw [hpf]; exact List.mem_cons_self _ _
          rw [potential_fields, List.mem_filter, mem_sortByKey] at hm
          have : p0.1 ∈ numericCustomKeys fields := by
            rw [mem_numericCustomKeys]
            exact ⟨p0, hm.1, hm.2, rfl⟩
          rw [hkeys] at this
          cases this
    rw [detect_recommendation, recommendFrom.eq_def, hemNil, hpmNil, hpfNil]

/-- C6 counterexample: no field name matches, and the sample issue's only
custom field holds boolean `true`.  Python's `isinstance(True, (int, float))`
is `True` (`bool` subclasses `int`), so the code recommends
`customfield_10001`, while the claim's "custom field holding a numeric
value" stage is empty and would fall through to the default
`customfield_10016`. -/
theorem detect_recommendation_counts_bool_as_numeric :
    detect_recommendation [] [("customfield_10001", .bool true)] = "customfield_10001" ∧
    "customfield_10001" ≠ "customfield_10016" := by
  exact ⟨rfl, by decide⟩

/-- Witness for the amended C6: no name matches, two numeric custom fields
in the sample, the alphabetically smaller key is recommended. -/
theorem detect_recommendation_ranked_witness :
    detect_recommendation [("summary", "Summary")]
        [("customfield_9", .float 2), ("customfield_3", .int 1)]
      ∈ numericCustomKeys [("customfield_9", .float 2), ("customfield_3", .int 1)] ∧
    ∀ k ∈ numericCustomKeys [("customfield_9", .float 2), ("customfield_3", .int 1)],
      strLtB k (detect_recommendation [("summary", "Summary")]
        [("customfield_9", .float 2), ("customfield_3", .int 1)]) = false :=
  (detect_recommendation_ranked [("summary", "Summary")]
      [("customfield_9", .float 2), ("customfield_3", .int 1)]).2.2.1
    rfl rfl (by decide)

/-- C7: error surfacing in the detector.  A raised HTTP fetch of the sample
issue (by issue key or by sprint), a sprint with no issues, or neither
argument supplied, each make `detect_story_points_field` return `None` with
no recommendation; when only the later field-metadata fetch raises, it
returns the first numeric custom field of the sample issue when one exists
and `None` otherwise. -/
theorem detect_error_surfacing :
    (∀ (ik : Option String) (si : Option ℤ) (e : String)
        (fs : Except String PyVal) (ff : Except String (List FieldMeta)),
      optStrTruthy ik = true →
      detect_story_points_field ik si (.error e) fs ff = .ok Option.none) ∧
    (∀ (ik : Option String) (si : Option ℤ) (e : String)
        (fi : Except String PyVal) (ff : Except String (List FieldMeta)),
      optStrTruthy ik = false → optIntTruthy si = true →
      detect_story_points_field ik si fi (.error e) ff = .ok Option.none) ∧
    (∀ (ik : Option String) (si : Option ℤ) (data v : PyVal)
        (fi : Except String PyVal) (ff : Except String (List FieldMeta)),
      optStrTruthy ik = false → optIntTruthy si = true →
      pyGet data "issues" = .ok v → truthy v = false →
      detect_story_points_field ik si fi (.ok data) ff = .ok Option.none) ∧
    (∀ (ik : Option String) (si : Option ℤ)
        (fi fs : Except String PyVal) (ff : Except String (List FieldMeta)),
      optStrTruthy ik = false → optIntTruthy si = false →
      detect_story_points_field ik si fi fs ff = .ok Option.none) ∧
    (∀ (ik : Option String) (si : Option ℤ) (d flds : Fields)
        (fs : Except String PyVal) (e : String),
      optStrTruthy ik = true →
      truthy (.dict d) = true →
      dgetD d "fields" (.dict []) = .dict flds →
      detect_story_points_field ik si (.ok (.dict d)) fs (.error e)
        = .ok ((potential_fields flds).head?.map (fun p => p.1))) := by
  refine ⟨?_, ?_, ?_, ?_, ?_⟩
  · intro ik si e fs ff h1
    rw [detect_story_points_field.eq_def, if_pos h1]
  · intro ik si e fi ff h1 h2
    rw [detect_story_points_field.eq_def, if_neg (by simp [h1]), if_pos h2]
  · intro ik si data v fi ff h1 h2 hv htv
    have hsel : sprintSelect data = .ok Option.none := by
      rw [sprintSelect, hv]
      dsimp only
      rw [htv]
      rfl
    rw [detect_story_points_field.eq_def, if_neg (by simp [h1]), if_pos h2]
    dsimp only
    rw [hsel]
  · intro ik si fi fs ff h1 h2
    rw [detect_story_points_field.eq_def, if_neg (by simp [h1]), if_neg (by simp [h2])]
  · intro ik si d flds fs e h1 h2 h3
    rw [detect_story_points_field.eq_def, if_pos h1]
    dsimp only
    rw [detectAnalyze, if_neg (by simp [h2])]
    dsimp only [pyGetD]
    rw [h3]
    dsimp only [pyItems]
    cases hpf : potential_fields flds with
    | nil => rfl
    | cons p t =>
        rcases p with ⟨k, v⟩
        rfl

/-- Witness for C7: a failing issue fetch yields no recommendation; a
failing field-metadata fetch falls back to the sample issue's first numeric
custom field. -/
theorem detect_error_surfacing_witness :
    detect_story_points_field (some "PROJ-1") Option.none (.error "HTTPError")
        (.ok .none) (.ok []) = .ok Option.none ∧
    detect_story_points_field (some "PROJ-1") Option.none
        (.ok (.dict [("fields", .dict [("customfield_9", .float 2)])]))
        (.ok .none) (.error "HTTPError")
      = .ok ((potential_fields [("customfield_9", .float 2)]).head?.map (fun p => p.1)) :=
  ⟨detect_error_surfacing.1 (some "PROJ-1") Option.none "HTTPError"
      (.ok .none) (.ok []) rfl,
   detect_error_surfacing.2.2.2.2 (some "PROJ-1") Option.none
      [("fields", .dict [("customfield_9", .float 2)])] [("customfield_9", .float 2)]
      (.ok .none) "HTTPError" rfl rfl rfl⟩

/-- C5: the two completion-percentage cells of an assignee's CSV row:
`Completion % (Issues)` is `round(100·completed/total, 1)` when
`total_issues > 0` and `0.0` when it is `0`; `Completion % (Story Points)`
is `round(100·completed_sp/total_sp, 1)` when `total_story_points > 0` and
`0.0` otherwise; both computations return `.ok`, i.e. neither ever raises
`ZeroDivisionError`. -/
theorem completion_pct_cells (m : AMetrics) :
    completionPctIssues m
        = .ok (if 0 < m.total_issues
               then pyRound1 (100 * (m.completed_issues : ℚ) / (m.total_issues : ℚ))
               else 0)
      ∧ completionPctSP m
        = .ok (if 0 < m.total_story_points
               then pyRound1 (100 * m.completed_story_points / m.total_story_points)
               else 0) := by
  constructor
  · rw [completionPctIssues]
    by_cases h : 0 < m.total_issues
    · have hne : ((m.total_issues : ℕ) : ℚ) ≠ 0 := by
        exact_mod_cast Nat.pos_iff_ne_zero.mp h
      rw [if_pos h, if_pos h, pyDiv, if_neg hne]
    · rw [if_neg h, if_neg h]
  · rw [completionPctSP]
    by_cases h : 0 < m.total_story_points
    · have hne : m.total_story_points ≠ 0 := ne_of_gt h
      rw [if_pos h, if_pos h, pyDiv, if_neg hne]
    · rw [if_neg h, if_neg h]
